import Mathlib

/-!
# Verification of the exchange-rate pipeline

A shallow embedding of `exchange_rate_pipeline.py` together with theorems
about its retry policy, orchestration, record building, identifier
generation and partitioned writing.

Modelling conventions:
* Network interaction is modelled by an environment that supplies, for each
  request the code issues, either an HTTP response (status plus the result of
  JSON-parsing its body) or a transport-level exception.
* Floating-point rates appear in the code only as values carried through and
  as their decimal string rendering inside `generate_id`; they are modelled by
  that string rendering.
* Calendar dates are modelled as proleptic-Gregorian day counts from the Unix
  epoch, with explicit civil-date conversion mirroring `datetime.utcfromtimestamp`
  and `strftime`.
* Side effects (sleeps, directory creation, file writes, the no-data warning)
  are reified as explicit event lists so theorems can speak about them.
-/

namespace ExchangeRatePipeline

/-- A successful JSON payload from the API, as consumed by the pipeline:
`base` and `timestamp` are read with `dict.get` (so they may be missing) and
`rates` is an association of currency code to the rate's decimal rendering. -/
structure Payload where
  base : Option String
  timestamp : Option Nat
  rates : List (String × String)
  deriving DecidableEq, Repr

/-- Outcome of one `session.get` as seen by the code: either a response whose
status is inspected and whose body JSON-parse either succeeds with a payload
or raises, or a transport-level exception raised by the request itself. -/
inductive Outcome where
  | response (status : Nat) (body : Except Unit Payload)
  | exn
  deriving Repr

/-- Observable events of one fetch: an HTTP request being issued, or an
`asyncio.sleep` of the given number of seconds. -/
inductive FetchEvent where
  | request
  | sleep (secs : Nat)
  deriving DecidableEq, Repr

/-- Source: `exponential_backoff(retry_count)` returns `min(2**retry_count, 60)`. -/
def exponential_backoff (retry_count : Nat) : Nat :=
  min (2 ^ retry_count) 60

/-- The loop body of `fetch_exchange_rates`, indexed by the current `attempt`
counter and the number of remaining loop iterations (`retries - attempt`).
Each iteration issues one GET (consuming `env attempt`); then:
HTTP 200 with a parsable body returns it; HTTP 401 returns `none` at once;
HTTP 429 sleeps `exponential_backoff attempt` and continues; any other status
returns `none` at once; an exception — from the request itself or from JSON
parsing of a 200 body, both inside the `try` — sleeps the same backoff and
continues. Falling off the loop yields `none`. Returns the result paired with
the list of observable events. -/
def fetchGo (env : Nat → Outcome) (attempt : Nat) :
    Nat → Option Payload × List FetchEvent
  | 0 => (none, [])
  | remaining + 1 =>
    match env attempt with
    | .exn =>
      let rest := fetchGo env (attempt + 1) remaining
      (rest.1, .request :: .sleep (exponential_backoff attempt) :: rest.2)
    | .response status body =>
      if status = 200 then
        match body with
        | .ok p => (some p, [.request])
        | .error _ =>
          let rest := fetchGo env (attempt + 1) remaining
          (rest.1, .request :: .sleep (exponential_backoff attempt) :: rest.2)
      else if status = 401 then (none, [.request])
      else if status = 429 then
        let rest := fetchGo env (attempt + 1) remaining
        (rest.1, .request :: .sleep (exponential_backoff attempt) :: rest.2)
      else (none, [.request])

/-- Source: `fetch_exchange_rates(session, date, retries=5)` runs
`for attempt in range(retries)` and returns `None` when the loop exhausts. -/
def fetch_exchange_rates (env : Nat → Outcome) (retries : Nat := 5) :
    Option Payload × List FetchEvent :=
  fetchGo env 0 retries

/-- Source: `fetch_latest_exchange_rates(session)` issues a single GET with no
`try` block: status 200 returns the parsed body (a parse failure propagates as
an exception), any other status logs and returns `None`; a transport exception
likewise propagates to the caller. -/
def fetch_latest_exchange_rates (o : Outcome) : Except Unit (Option Payload) :=
  match o with
  | .exn => .error ()
  | .response status body =>
    if status = 200 then
      match body with
      | .ok p => .ok (some p)
      | .error e => .error e
    else .ok none

/-- An outcome the retry loop treats as retryable per the claim under study:
HTTP 429 or a transport-level exception. -/
def isRetryableOutcome : Outcome → Bool
  | .exn => true
  | .response status _ => status == 429

/-- The event trace of a run of the retry loop all of whose iterations hit a
retryable outcome: starting at `attempt`, each of the `remaining` iterations
issues a request and then sleeps `exponential_backoff` of the current attempt
counter. -/
def retryTrace (attempt : Nat) : Nat → List FetchEvent
  | 0 => []
  | remaining + 1 =>
    .request :: .sleep (exponential_backoff attempt) :: retryTrace (attempt + 1) remaining

/-- An outcome on which one loop iteration neither returns nor succeeds, so
the loop sleeps and moves to the next attempt: HTTP 429, a transport-level
exception, or a 200 response whose body fails JSON parsing (the parse error
is raised inside the `try` and caught like a transport exception). -/
def isCaughtOutcome : Outcome → Bool
  | .exn => true
  | .response status (.error _) => status == 429 || status == 200
  | .response status (.ok _) => status == 429

/-! ## SHA-256, as used by `generate_id` via `hashlib.sha256(...).hexdigest()`

An executable FIPS 180-4 SHA-256 over byte lists, with 32-bit words as
naturals reduced modulo `2 ^ 32`. -/

/-- The 32-bit modulus. -/
def w32 : Nat := 4294967296

/-- Right rotation of a 32-bit word (input assumed already below `w32`). -/
def rotr32 (n x : Nat) : Nat :=
  ((x >>> n) ||| (x <<< (32 - n))) % w32

/-- The choice function `Ch` of FIPS 180-4. -/
def chFn (x y z : Nat) : Nat :=
  (x &&& y) ^^^ ((x ^^^ 4294967295) &&& z)

/-- The majority function `Maj` of FIPS 180-4. -/
def majFn (x y z : Nat) : Nat :=
  (x &&& y) ^^^ (x &&& z) ^^^ (y &&& z)

/-- The big sigma-0 word mix. -/
def upSig0 (x : Nat) : Nat := rotr32 2 x ^^^ rotr32 13 x ^^^ rotr32 22 x

/-- The big sigma-1 word mix. -/
def upSig1 (x : Nat) : Nat := rotr32 6 x ^^^ rotr32 11 x ^^^ rotr32 25 x

/-- The small sigma-0 word mix. -/
def loSig0 (x : Nat) : Nat := rotr32 7 x ^^^ rotr32 18 x ^^^ (x >>> 3)

/-- The small sigma-1 word mix. -/
def loSig1 (x : Nat) : Nat := rotr32 17 x ^^^ rotr32 19 x ^^^ (x >>> 10)

/-- The 64 SHA-256 round constants, in decimal. -/
def roundConsts : List Nat :=
  [1116352408, 1899447441, 3049323471, 3921009573,
   961987163, 1508970993, 2453635748, 2870763221,
   3624381080, 310598401, 607225278, 1426881987,
   1925078388, 2162078206, 2614888103, 3248222580,
   3835390401, 4022224774, 264347078, 604807628,
   770255983, 1249150122, 1555081692, 1996064986,
   2554220882, 2821834349, 2952996808, 3210313671,
   3336571891, 3584528711, 113926993, 338241895,
   666307205, 773529912, 1294757372, 1396182291,
   1695183700, 1986661051, 2177026350, 2456956037,
   2730485921, 2820302411, 3259730800, 3345764771,
   3516065817, 3600352804, 4094571909, 275423344,
   430227734, 506948616, 659060556, 883997877,
   958139571, 1322822218, 1537002063, 1747873779,
   1955562222, 2024104815, 2227730452, 2361852424,
   2428436474, 2756734187, 3204031479, 3329325298]

/-- The eight-word working state / chaining value of the compression function. -/
structure Digest where
  e0 : Nat
  e1 : Nat
  e2 : Nat
  e3 : Nat
  e4 : Nat
  e5 : Nat
  e6 : Nat
  e7 : Nat
  deriving Repr, DecidableEq

/-- The SHA-256 initial hash value, in decimal. -/
def initDigest : Digest :=
  ⟨1779033703, 3144134277, 1013904242, 2773480762,
   1359893119, 2600822924, 528734635, 1541459225⟩

/-- Big-endian packing of bytes into 32-bit words. -/
def bytesToWords : List Nat → List Nat
  | b0 :: b1 :: b2 :: b3 :: rest =>
    (((b0 * 256 + b1) * 256 + b2) * 256 + b3) :: bytesToWords rest
  | _ => []

/-- One extension step of the message schedule: append word
`σ₁(w[n-2]) + w[n-7] + σ₀(w[n-15]) + w[n-16]` reduced mod `2 ^ 32`. -/
def scheduleStep (w : List Nat) : List Nat :=
  let n := w.length
  w ++ [(loSig1 (w.getD (n - 2) 0) + w.getD (n - 7) 0 +
         loSig0 (w.getD (n - 15) 0) + w.getD (n - 16) 0) % w32]

/-- Extend the 16 block words to the 64 scheduled words. -/
def schedule (w16 : List Nat) : List Nat :=
  (List.range 48).foldl (fun acc _ => scheduleStep acc) w16

/-- One of the 64 compression rounds, consuming a (round constant, scheduled
word) pair. -/
def roundStep (st : Digest) (kw : Nat × Nat) : Digest :=
  let t1 := (st.e7 + upSig1 st.e4 + chFn st.e4 st.e5 st.e6 + kw.1 + kw.2) % w32
  let t2 := (upSig0 st.e0 + majFn st.e0 st.e1 st.e2) % w32
  ⟨(t1 + t2) % w32, st.e0, st.e1, st.e2, (st.e3 + t1) % w32, st.e4, st.e5, st.e6⟩

/-- Compress one 64-byte block into the chaining value. -/
def processBlock (h : Digest) (block : List Nat) : Digest :=
  let st := (roundConsts.zip (schedule (bytesToWords block))).foldl roundStep h
  ⟨(h.e0 + st.e0) % w32, (h.e1 + st.e1) % w32, (h.e2 + st.e2) % w32,
   (h.e3 + st.e3) % w32, (h.e4 + st.e4) % w32, (h.e5 + st.e5) % w32,
   (h.e6 + st.e6) % w32, (h.e7 + st.e7) % w32⟩

/-- The 8-byte big-endian encoding of the message bit length. -/
def lengthBytes (bits : Nat) : List Nat :=
  [bits / 2 ^ 56 % 256, bits / 2 ^ 48 % 256, bits / 2 ^ 40 % 256,
   bits / 2 ^ 32 % 256, bits / 2 ^ 24 % 256, bits / 2 ^ 16 % 256,
   bits / 2 ^ 8 % 256, bits % 256]

/-- FIPS 180-4 §5.1.1 padding: a `0x80` byte, zeros to 56 mod 64, then the
bit length. -/
def padMessage (msg : List Nat) : List Nat :=
  msg ++ 128 :: (List.replicate ((119 - msg.length % 64) % 64) 0 ++ lengthBytes (8 * msg.length))

/-- Split a byte list into successive 64-byte blocks, with a structural fuel
argument; each step consumes a nonempty list, so `l.length` fuel suffices. -/
def blocksGo : Nat → List Nat → List (List Nat)
  | 0, _ => []
  | fuel + 1, l => if l = [] then [] else l.take 64 :: blocksGo fuel (l.drop 64)

/-- Split a byte list into successive 64-byte blocks. -/
def blocks64 (l : List Nat) : List (List Nat) :=
  blocksGo l.length l

/-- Big-endian bytes of one 32-bit word. -/
def wordBytes (x : Nat) : List Nat :=
  [x / 2 ^ 24 % 256, x / 2 ^ 16 % 256, x / 2 ^ 8 % 256, x % 256]

/-- The 32 digest bytes of a final chaining value. -/
def digestBytes (d : Digest) : List Nat :=
  wordBytes d.e0 ++ wordBytes d.e1 ++ wordBytes d.e2 ++ wordBytes d.e3 ++
  wordBytes d.e4 ++ wordBytes d.e5 ++ wordBytes d.e6 ++ wordBytes d.e7

/-- SHA-256 of a byte list, as its 32 digest bytes. -/
def sha256Bytes (msg : List Nat) : List Nat :=
  digestBytes ((blocks64 (padMessage msg)).foldl processBlock initDigest)

/-- A lowercase hexadecimal digit. -/
def hexDigit (n : Nat) : Char :=
  if n < 10 then Char.ofNat (48 + n) else Char.ofNat (87 + n)

/-- The two lowercase hex digits of one byte, as `hexdigest()` renders it. -/
def byteHex (b : Nat) : List Char :=
  [hexDigit (b / 16), hexDigit (b % 16)]

/-- The lowercase hexadecimal rendering of a byte list, as Python's
`hexdigest()` produces. -/
def hexOfBytes (bs : List Nat) : String :=
  String.mk ((bs.map byteHex).flatten)

/-- UTF-8 encoding of one scalar value, as `str.encode()` produces. -/
def utf8Char (c : Char) : List Nat :=
  let n := c.toNat
  if n < 128 then [n]
  else if n < 2048 then [192 + n / 64, 128 + n % 64]
  else if n < 65536 then [224 + n / 4096, 128 + n / 64 % 64, 128 + n % 64]
  else [240 + n / 262144, 128 + n / 4096 % 64, 128 + n / 64 % 64, 128 + n % 64]

/-- UTF-8 encoding of a string, as `str.encode()` produces. -/
def utf8Encode (s : String) : List Nat :=
  (s.data.map utf8Char).flatten

/-- Source: `generate_id(date, currency, rate)` returns
`hashlib.sha256(f"{date}_{currency}_{rate}".encode()).hexdigest()`. The
float `rate` enters only through its decimal rendering in the f-string, so it
is taken here as that rendering. -/
def generate_id (date currency rate : String) : String :=
  hexOfBytes (sha256Bytes (utf8Encode (date ++ "_" ++ currency ++ "_" ++ rate)))

/-! ## Calendar dates

The code handles dates through `datetime`: `utcfromtimestamp` for the
response's epoch timestamp, `strftime("%Y-%m-%d")` / `"%Y-%m-%d %H:%M:%S"`
for rendering, `strptime(...).strftime("%A")` for the weekday name. Dates are
modelled as proleptic-Gregorian civil triples `(year, month, day)` and as day
counts from the Unix epoch, related by the standard civil-from-days /
days-from-civil conversions (specialised to dates on or after the epoch,
which is all a nonnegative timestamp can produce). -/

/-- The civil date of an epoch day count (day 0 = 1970-01-01). -/
def civilFromDays (z : Nat) : Nat × Nat × Nat :=
  let w := z + 719468
  let era := w / 146097
  let doe := w % 146097
  let yoe := (doe - doe / 1460 + doe / 36524 - doe / 146096) / 365
  let y := yoe + era * 400
  let doy := doe - (365 * yoe + yoe / 4 - yoe / 100)
  let mp := (5 * doy + 2) / 153
  let d := doy - (153 * mp + 2) / 5 + 1
  let m := if mp < 10 then mp + 3 else mp - 9
  (if m ≤ 2 then y + 1 else y, m, d)

/-- The epoch day count of a civil date on or after 1970-01-01. -/
def daysFromCivil (y m d : Nat) : Nat :=
  let y1 := if m ≤ 2 then y - 1 else y
  let era := y1 / 400
  let yoe := y1 % 400
  let mp := if 2 < m then m - 3 else m + 9
  let doy := (153 * mp + 2) / 5 + d - 1
  let doe := yoe * 365 + yoe / 4 - yoe / 100 + doy
  era * 146097 + doe - 719468

/-- The weekday index of an epoch day count, 0 = Sunday … 6 = Saturday;
day 0 (1970-01-01) was a Thursday, index 4. -/
def weekdayIdxOfDays (z : Nat) : Nat := (z + 4) % 7

/-- The English weekday names in index order, Sunday through Saturday. -/
def weekdayNames : List String :=
  ["Sunday", "Monday", "Tuesday", "Wednesday", "Thursday", "Friday", "Saturday"]

/-- The English weekday name of a weekday index, as `strftime("%A")` emits. -/
def weekdayName (w : Nat) : String :=
  weekdayNames.getD w "Saturday"

/-- Models `datetime.strptime(date_str, "%Y-%m-%d").strftime("%A")`: the
weekday name of the civil date the string denotes. -/
def weekdayOfCivil (ymd : Nat × Nat × Nat) : String :=
  weekdayName (weekdayIdxOfDays (daysFromCivil ymd.1 ymd.2.1 ymd.2.2))

/-- Zero-pad to two digits, as `strftime` does for `%m`, `%d`, `%H`, `%M`, `%S`. -/
def pad2 (n : Nat) : String :=
  if n < 10 then "0" ++ toString n else toString n

/-- Zero-pad to four digits, as `strftime` does for `%Y`. -/
def pad4 (n : Nat) : String :=
  if n < 10 then "000" ++ toString n
  else if n < 100 then "00" ++ toString n
  else if n < 1000 then "0" ++ toString n
  else toString n

/-- Render a civil date as `strftime("%Y-%m-%d")` does. -/
def renderDate (ymd : Nat × Nat × Nat) : String :=
  pad4 ymd.1 ++ "-" ++ pad2 ymd.2.1 ++ "-" ++ pad2 ymd.2.2

/-- Models `datetime.utcfromtimestamp(t).strftime("%Y-%m-%d")`. -/
def dateStrOfSecs (t : Nat) : String :=
  renderDate (civilFromDays (t / 86400))

/-- Models `datetime.utcnow().strftime("%Y-%m-%d %H:%M:%S")` at epoch second `t`. -/
def datetimeStrOfSecs (t : Nat) : String :=
  dateStrOfSecs t ++ " " ++ pad2 (t % 86400 / 3600) ++ ":" ++
    pad2 (t % 3600 / 60) ++ ":" ++ pad2 (t % 60)

/-- The numeric value of a digit character, as `int` reads it. -/
def digitVal (c : Char) : Nat := c.toNat - 48

/-- The numeric value of a digit string, as `int` reads it. -/
def natOfDigits (cs : List Char) : Nat :=
  cs.foldl (fun a c => 10 * a + digitVal c) 0

/-- Source: `int(date_str[:4])`. -/
def yearOfDateStr (s : String) : Nat := natOfDigits (s.data.take 4)

/-- Source: `int(date_str[5:7])`. -/
def monthOfDateStr (s : String) : Nat := natOfDigits ((s.data.drop 5).take 2)

/-! ## Record building (main, lines 163-193) -/

/-- One row appended to `all_data`, with the column names of the DataFrame;
`exchange_rate` carries the rate's decimal rendering. -/
structure Record where
  id : String
  date : String
  base_currency : String
  currency : String
  exchange_rate : String
  retrieval_time : String
  source_api_version : String
  day_of_week : String
  is_weekend : Bool
  year : Nat
  month : Nat
  deriving DecidableEq, Repr

/-- Source constant `API_VERSION = "v1"`. -/
def API_VERSION : String := "v1"

/-- The civil date the loop derives for one response: the truthiness test
`if timestamp` sends both a missing timestamp and a zero timestamp to the
`datetime.utcnow()` fallback, every other value through `utcfromtimestamp`. -/
def responseDate (now : Nat) (p : Payload) : Nat × Nat × Nat :=
  match p.timestamp with
  | some t => if t = 0 then civilFromDays (now / 86400) else civilFromDays (t / 86400)
  | none => civilFromDays (now / 86400)

/-- The per-response body of the processing loop: for a truthy response,
read `base` with default `"USD"`, derive the date string, weekday name and
weekend flag, and emit one row per `(currency, rate)` item of `rates`; for
an absent response, no rows. `now` is the current processing instant in
epoch seconds, giving both `retrieval_time` and the fallback date. -/
def buildRecords (now : Nat) (response : Option Payload) : List Record :=
  match response with
  | none => []
  | some p =>
    let base_currency := p.base.getD "USD"
    let retrieval_time := datetimeStrOfSecs now
    let dateT := responseDate now p
    let date_str := renderDate dateT
    let day_of_week := weekdayOfCivil dateT
    let is_weekend := ["Saturday", "Sunday"].contains day_of_week
    p.rates.map fun cr =>
      { id := generate_id date_str cr.1 cr.2
        date := date_str
        base_currency := base_currency
        currency := cr.1
        exchange_rate := cr.2
        retrieval_time := retrieval_time
        source_api_version := API_VERSION
        day_of_week := day_of_week
        is_weekend := is_weekend
        year := yearOfDateStr date_str
        month := monthOfDateStr date_str }

/-! ## Partitioned writing (`save_to_parquet`) -/

/-- The grouping key `["year", "month"]` of a record. -/
def recordKey (r : Record) : Nat × Nat := (r.year, r.month)

/-- Insert a key into a lexicographically sorted key list. -/
def insortKey (k : Nat × Nat) : List (Nat × Nat) → List (Nat × Nat)
  | [] => [k]
  | k' :: rest =>
    if k.1 < k'.1 ∨ (k.1 = k'.1 ∧ k.2 ≤ k'.2) then k :: k' :: rest
    else k' :: insortKey k rest

/-- Sort a key list lexicographically (insertion sort). -/
def sortKeys (ks : List (Nat × Nat)) : List (Nat × Nat) :=
  ks.foldr insortKey []

/-- The distinct `(year, month)` keys of a record list in ascending order, as
`df.groupby(["year", "month"])` enumerates its groups. -/
def groupKeys (rs : List Record) : List (Nat × Nat) :=
  sortKeys (rs.map recordKey).dedup

/-- Source: `Path(save_path) / f"year={year}" / f"month={month}"`. -/
def partitionDir (save_path : String) (k : Nat × Nat) : String :=
  save_path ++ "/year=" ++ toString k.1 ++ "/month=" ++ toString k.2

/-- The partition's output file `partitioned_path / "exchange_rates.parquet"`. -/
def partitionFile (save_path : String) (k : Nat × Nat) : String :=
  partitionDir save_path k ++ "/exchange_rates.parquet"

/-- The file-system effects of `save_to_parquet`: the directories it creates
(idempotently, `exist_ok=True`) and the files it writes with their rows. -/
structure WriteEffects where
  mkdirs : List String
  writes : List (String × List Record)
  deriving DecidableEq, Repr

/-- Source: `save_to_parquet(df, save_path)` makes the save path, then for
each `(year, month)` group makes the partition directory and writes that
group's rows — exactly the records whose key matches, in input order, as
`groupby` partitions a DataFrame — to `exchange_rates.parquet` there. -/
def save_to_parquet (rs : List Record) (save_path : String) : WriteEffects :=
  { mkdirs := save_path :: (groupKeys rs).map (partitionDir save_path)
    writes := (groupKeys rs).map fun k =>
      (partitionFile save_path k, rs.filter fun r => decide (recordKey r = k)) }

/-! ## The `main` orchestration -/

/-- The observable effects of the phase of `main` after the fetches: either
the write effects of `save_to_parquet` on the built DataFrame, or — when
`all_data` is empty, so `if all_data:` is falsy — no effects at all and the
`"No data retrieved."` warning. -/
structure MainEffects where
  mkdirs : List String
  writes : List (String × List Record)
  warnedNoData : Bool
  deriving DecidableEq, Repr

/-- Source: main lines 163-215. Build `all_data` by concatenating the rows of
each truthy response in gathered order; if nonempty, build the DataFrame and
call `save_to_parquet`, else log the warning and write nothing. -/
def processResponses (responses : List (Option Payload)) (now : Nat)
    (save_path : String) : MainEffects :=
  let all_data := (responses.map (buildRecords now)).flatten
  if all_data.isEmpty then { mkdirs := [], writes := [], warnedNoData := true }
  else
    let w := save_to_parquet all_data save_path
    { mkdirs := w.mkdirs, writes := w.writes, warnedNoData := false }

/-- The days `main` schedules for an inclusive range: `start + i` for
`i in range((end - start).days + 1)`, in creation order. -/
def scheduledDates (s e : Nat) : List Nat :=
  (List.range (e - s + 1)).map (s + ·)

/-- The fetch phase of `main`: with both dates present, one
`fetch_exchange_rates` task per day of the inclusive range, gathered in task
creation order (ascending date) by `asyncio.gather`; with either date absent,
one `fetch_latest_exchange_rates` call, whose exception (if any) propagates
out of `main`. `histEnv d` is the network environment seen by the task for
day `d`; `retries` is the per-task retry budget (5 in the code). -/
def mainFetchResponses (dateRange : Option (Nat × Nat))
    (histEnv : Nat → Nat → Outcome) (latestEnv : Outcome) (retries : Nat) :
    Except Unit (List (Option Payload)) :=
  match dateRange with
  | some (s, e) =>
    .ok ((scheduledDates s e).map fun d => (fetch_exchange_rates (histEnv d) retries).1)
  | none => (fetch_latest_exchange_rates latestEnv).map fun r => [r]

/-! ## File-system semantics for overwrite claims -/

/-- A file system as a partial map from paths to written row lists. -/
def FS : Type := String → Option (List Record)

/-- Apply one write: the target path now holds exactly the written rows. -/
def applyWrite (fs : FS) (w : String × List Record) : FS :=
  fun path => if path = w.1 then some w.2 else fs path

/-- Apply a list of writes in order (later writes win). -/
def applyWrites (fs : FS) (ws : List (String × List Record)) : FS :=
  ws.foldl applyWrite fs

/-! ## Concrete fixtures for witnesses -/

/-- The spec's example response: `base="USD"`, `timestamp` for 2024-02-18,
`rates={"EUR": 1.12, "GBP": 0.85}`. -/
def samplePayload : Payload :=
  ⟨some "USD", some 1708214400, [("EUR", "1.12"), ("GBP", "0.85")]⟩

/-- The first record built from `samplePayload` at processing instant
1700000000 (2023-11-14 22:13:20 UTC). -/
def sampleRecord : Record :=
  { id := "92687f1f48cf0e145486685573770ab34e5b5dcc3d0561c0275c5e5f35e9928b"
    date := "2024-02-18"
    base_currency := "USD"
    currency := "EUR"
    exchange_rate := "1.12"
    retrieval_time := "2023-11-14 22:13:20"
    source_api_version := "v1"
    day_of_week := "Sunday"
    is_weekend := true
    year := 2024
    month := 2 }

/-- A concrete record in the (2024, 1) partition. -/
def recJan : Record :=
  { id := "a"
    date := "2024-01-05"
    base_currency := "USD"
    currency := "EUR"
    exchange_rate := "1.1"
    retrieval_time := "2024-01-05 00:00:00"
    source_api_version := "v1"
    day_of_week := "Friday"
    is_weekend := false
    year := 2024
    month := 1 }

/-- A concrete record in the (2024, 2) partition. -/
def recFeb : Record :=
  { recJan with id := "b", date := "2024-02-06", currency := "GBP", month := 2 }

/-! ## Theorems -/

theorem fetchGo_caught (env : Nat → Outcome) :
    ∀ remaining attempt, (∀ i, attempt ≤ i → i < attempt + remaining →
      isCaughtOutcome (env i) = true) →
    fetchGo env attempt remaining = (none, retryTrace attempt remaining) := by
  intro remaining
  induction remaining with
  | zero => intro attempt _; rfl
  | succ n ih =>
    intro attempt h
    have h0 : isCaughtOutcome (env attempt) = true :=
      h attempt (by omega) (by omega)
    have hrest : fetchGo env (attempt + 1) n = (none, retryTrace (attempt + 1) n) :=
      ih (attempt + 1) (fun i h1 h2 => h i (by omega) (by omega))
    cases henv : env attempt with
    | exn =>
      simp only [fetchGo, henv, hrest, retryTrace]
    | response status body =>
      rw [henv] at h0
      cases body with
      | ok p =>
        simp only [isCaughtOutcome, beq_iff_eq] at h0
        subst h0
        simp only [fetchGo, henv, hrest, retryTrace]
        norm_num
      | error e =>
        simp only [isCaughtOutcome, beq_iff_eq, Bool.or_eq_true] at h0
        rcases h0 with h429 | h200
        · subst h429
          simp only [fetchGo, henv, hrest, retryTrace]
          norm_num
        · subst h200
          simp only [fetchGo, henv, hrest, retryTrace]
          norm_num

theorem isRetryableOutcome_caught (o : Outcome) :
    isRetryableOutcome o = true → isCaughtOutcome o = true := by
  cases o with
  | exn => intro _; rfl
  | response status body =>
    cases body with
    | ok p => intro h; exact h
    | error e =>
      simp only [isRetryableOutcome, isCaughtOutcome, Bool.or_eq_true]
      intro h; exact Or.inl h

theorem retryTrace_request_count :
    ∀ remaining attempt, (retryTrace attempt remaining).count FetchEvent.request = remaining := by
  intro remaining
  induction remaining with
  | zero => intro attempt; rfl
  | succ n ih =>
    intro attempt
    have h1 : (FetchEvent.sleep (exponential_backoff attempt) == FetchEvent.request) = false := rfl
    have h2 : (FetchEvent.request == FetchEvent.request) = true := rfl
    simp [retryTrace, List.count_cons, ih, h1, h2]

/-- C1: `fetch_historical` treats HTTP 429 and any transport-level exception
as retryable: on a run whose every outcome is such, each of the `retries`
loop iterations issues its request and then sleeps `exponential_backoff` of
the current attempt counter (which the trace shows incrementing), the loop
makes exactly `retries` attempts, and when they are exhausted the function
returns the absence sentinel `none`. -/
theorem c1_retryable_backoff_then_none (env : Nat → Outcome) (retries : Nat)
    (h : ∀ i, i < retries → isRetryableOutcome (env i) = true) :
    fetch_exchange_rates env retries = (none, retryTrace 0 retries) ∧
    (retryTrace 0 retries).count FetchEvent.request = retries := by
  constructor
  · exact fetchGo_caught env retries 0
      (fun i h1 h2 => isRetryableOutcome_caught (env i) (h i (by omega)))
  · exact retryTrace_request_count retries 0

/-- Witness for C1 at a concrete all-429 environment with 3 retries. -/
theorem c1_retryable_backoff_then_none_witness :
    fetch_exchange_rates (fun _ => Outcome.response 429 (Except.error ())) 3 =
      (none, retryTrace 0 3) ∧
    (retryTrace 0 3).count FetchEvent.request = 3 :=
  c1_retryable_backoff_then_none (fun _ => Outcome.response 429 (Except.error ())) 3
    (by decide)

/-- C2: an HTTP 401 response, and any status other than 200/401/429, is
terminal for `fetch_historical`: whatever the current attempt and remaining
budget, the call returns `none` right there, with that single request as its
only event — no sleep and no further attempts. -/
theorem c2_terminal_status_immediate_none (env : Nat → Outcome)
    (attempt remaining status : Nat) (body : Except Unit Payload)
    (henv : env attempt = .response status body)
    (hterm : status = 401 ∨ (status ≠ 200 ∧ status ≠ 429)) :
    fetchGo env attempt (remaining + 1) = (none, [FetchEvent.request]) := by
  by_cases h401 : status = 401
  · subst h401
    simp [fetchGo, henv]
  · rcases hterm with h | ⟨h200, h429⟩
    · exact absurd h h401
    · simp [fetchGo, henv, h200, h401, h429]

/-- Witness for C2 at a concrete 401 response on the first of 5 attempts. -/
theorem c2_terminal_status_immediate_none_witness :
    fetchGo (fun _ => Outcome.response 401 (Except.error ())) 0 5 =
      (none, [FetchEvent.request]) :=
  c2_terminal_status_immediate_none (fun _ => Outcome.response 401 (Except.error ()))
    0 4 401 (Except.error ()) rfl (Or.inl rfl)

/-- C3: the backoff delay for attempt `n` is exactly `min (2 ^ n) 60`, hence
60 for every `n ≥ 6`; the delay before the first retry is
`min (2 ^ 0) 60 = 1`, and a run whose first outcome is HTTP 429 and whose
second is HTTP 200 returns the successful payload after sleeping exactly 1
second between the two requests. -/
theorem c3_backoff_min_formula :
    (∀ n : Nat, exponential_backoff n = min (2 ^ n) 60) ∧
    (∀ n : Nat, 6 ≤ n → exponential_backoff n = 60) ∧
    exponential_backoff 0 = 1 ∧
    (∀ (env : Nat → Outcome) (remaining : Nat) (p : Payload) (b : Except Unit Payload),
      env 0 = .response 429 b → env 1 = .response 200 (.ok p) →
      fetchGo env 0 (remaining + 2) =
        (some p, [FetchEvent.request, FetchEvent.sleep 1, FetchEvent.request])) := by
  refine ⟨fun n => rfl, fun n hn => ?_, rfl, fun env remaining p b h0 h1 => ?_⟩
  · have h : (60 : Nat) ≤ 2 ^ n :=
      le_trans (by norm_num) (Nat.pow_le_pow_right (by norm_num) hn)
    simp [exponential_backoff, Nat.min_eq_right h]
  · simp [fetchGo, h0, h1, exponential_backoff]

/-- Witness for C3: the capped delay at attempt 7 and the concrete
429-then-200 run. -/
theorem c3_backoff_min_formula_witness :
    exponential_backoff 7 = 60 ∧
    fetchGo (fun i => if i = 0 then Outcome.response 429 (Except.error ())
        else Outcome.response 200 (Except.ok ⟨none, none, []⟩)) 0 2 =
      (some ⟨none, none, []⟩,
        [FetchEvent.request, FetchEvent.sleep 1, FetchEvent.request]) :=
  ⟨c3_backoff_min_formula.2.1 7 (by norm_num),
   c3_backoff_min_formula.2.2.2 _ 0 ⟨none, none, []⟩ (Except.error ()) rfl rfl⟩

/-- C4: with an inclusive range of `e - s + 1` days, the orchestrator maps
one `fetch_historical` task over the scheduled days; the scheduled days are
exactly the days of the range, strictly ascending (so exactly one task per
day); the gathered result list has one slot per day, slot `i` holding the
result of the fetch for day `s + i` independently of the other slots; with
no range, one `fetch_latest` call yields a single-element result list. -/
theorem c4_orchestrator_slots (s e : Nat) (histEnv : Nat → Nat → Outcome)
    (latestEnv : Outcome) (retries : Nat) (hse : s ≤ e) :
    (mainFetchResponses (some (s, e)) histEnv latestEnv retries =
      .ok ((scheduledDates s e).map fun d => (fetch_exchange_rates (histEnv d) retries).1)) ∧
    (scheduledDates s e).length = e - s + 1 ∧
    List.Pairwise (· < ·) (scheduledDates s e) ∧
    (∀ d, d ∈ scheduledDates s e ↔ s ≤ d ∧ d ≤ e) ∧
    (∀ rs, mainFetchResponses (some (s, e)) histEnv latestEnv retries = .ok rs →
      rs.length = e - s + 1 ∧
      ∀ i, i < e - s + 1 →
        rs[i]? = some (fetch_exchange_rates (histEnv (s + i)) retries).1) ∧
    (∀ o, fetch_latest_exchange_rates latestEnv = .ok o →
      mainFetchResponses none histEnv latestEnv retries = .ok [o]) := by
  refine ⟨rfl, by simp [scheduledDates], ?_, ?_, ?_, ?_⟩
  · exact List.Pairwise.map _ (fun a b h => by omega) (List.pairwise_lt_range _)
  · intro d
    simp only [scheduledDates, List.mem_map, List.mem_range]
    constructor
    · rintro ⟨i, hi, rfl⟩; omega
    · rintro ⟨h1, h2⟩; exact ⟨d - s, by omega, by omega⟩
  · intro rs h
    simp only [mainFetchResponses, Except.ok.injEq] at h
    subst h
    refine ⟨by simp [scheduledDates], ?_⟩
    intro i hi
    simp [scheduledDates, List.getElem?_map, List.getElem?_range, hi]
  · intro o h
    simp [mainFetchResponses, h, Except.map]

/-- Witness for C4 on the concrete range 5..7 and a latest-only run. -/
theorem c4_orchestrator_slots_witness :
    (scheduledDates 5 7).length = 7 - 5 + 1 ∧
    (6 ∈ scheduledDates 5 7 ↔ 5 ≤ 6 ∧ 6 ≤ 7) ∧
    mainFetchResponses none (fun _ _ => Outcome.exn)
      (Outcome.response 404 (Except.error ())) 2 = .ok [none] :=
  ⟨(c4_orchestrator_slots 5 7 (fun _ _ => Outcome.exn)
      (Outcome.response 404 (Except.error ())) 2 (by norm_num)).2.1,
   (c4_orchestrator_slots 5 7 (fun _ _ => Outcome.exn)
      (Outcome.response 404 (Except.error ())) 2 (by norm_num)).2.2.2.1 6,
   (c4_orchestrator_slots 5 7 (fun _ _ => Outcome.exn)
      (Outcome.response 404 (Except.error ())) 2 (by norm_num)).2.2.2.2.2 none rfl⟩

/-- C5 counterexample: a 200 response whose body fails JSON parsing makes
`fetch_latest_exchange_rates` propagate the parse error — there is no `try`
around `await response.json()` there — rather than return the absence
sentinel. -/
theorem c5_counterexample_latest_parse_error_escapes :
    fetch_latest_exchange_rates (Outcome.response 200 (Except.error ())) =
        Except.error () ∧
    fetch_latest_exchange_rates (Outcome.response 200 (Except.error ())) ≠
        Except.ok none :=
  ⟨rfl, fun h => Except.noConfusion h⟩

/-- C5 amended: in `fetch_historical` a malformed 200 payload is caught by
the `except` clause like a transport error, so a run whose every attempt
yields one returns `none` (after the usual backoff sleeps) rather than
letting the error escape; in `fetch_latest` any non-200 status yields `none`,
but a malformed 200 body there raises instead of returning `none`. -/
theorem c5_amended_malformed_payload (retries : Nat) (env : Nat → Outcome)
    (status : Nat) (b : Except Unit Payload)
    (hmal : ∀ i, i < retries → env i = Outcome.response 200 (Except.error ()))
    (hs : status ≠ 200) :
    fetch_exchange_rates env retries = (none, retryTrace 0 retries) ∧
    fetch_latest_exchange_rates (Outcome.response status b) = Except.ok none := by
  constructor
  · exact fetchGo_caught env retries 0 (fun i h1 h2 => by
      rw [hmal i (by omega)]; rfl)
  · simp [fetch_latest_exchange_rates, hs]

/-- Witness for C5 (amended) on an all-malformed two-attempt run and a 503
latest response. -/
theorem c5_amended_malformed_payload_witness :
    fetch_exchange_rates (fun _ => Outcome.response 200 (Except.error ())) 2 =
      (none, retryTrace 0 2) ∧
    fetch_latest_exchange_rates (Outcome.response 503 (Except.error ())) =
      Except.ok none :=
  c5_amended_malformed_payload 2 (fun _ => Outcome.response 200 (Except.error ()))
    503 (Except.error ()) (fun i _ => rfl) (by decide)

theorem flatten_buildRecords_none (now : Nat) :
    ∀ responses : List (Option Payload), (∀ r ∈ responses, r = none) →
    (responses.map (buildRecords now)).flatten = [] := by
  intro responses
  induction responses with
  | nil => intro _; rfl
  | cons a t ih =>
    intro h
    have ha : a = none := h a (by simp)
    subst ha
    simp [buildRecords, ih (fun r hr => h r (by simp [hr]))]

/-- C6: when every fetch returned the absence sentinel, `all_data` is empty,
so `main` creates no directory, writes no file, and only logs the no-data
warning — a normal termination, not a failure. -/
theorem c6_empty_data_no_files (responses : List (Option Payload)) (now : Nat)
    (save_path : String) (h : ∀ r ∈ responses, r = none) :
    processResponses responses now save_path =
      { mkdirs := [], writes := [], warnedNoData := true } := by
  simp [processResponses, flatten_buildRecords_none now responses h]

/-- Witness for C6 on two absent fetches. -/
theorem c6_empty_data_no_files_witness :
    processResponses [none, none] 1708214400 "output" =
      { mkdirs := [], writes := [], warnedNoData := true } :=
  c6_empty_data_no_files [none, none] 1708214400 "output" (by decide)

theorem digestBytes_length (d : Digest) : (digestBytes d).length = 32 := by
  simp [digestBytes, wordBytes]

theorem flatten_byteHex_length :
    ∀ bs : List Nat, ((bs.map byteHex).flatten).length = 2 * bs.length := by
  intro bs
  induction bs with
  | nil => rfl
  | cons b t ih =>
    simp only [List.map_cons, List.flatten_cons, List.length_append, ih, byteHex,
      List.length_cons, List.length_nil, List.length_singleton]
    omega

theorem hexOfBytes_length (bs : List Nat) : (hexOfBytes bs).length = 2 * bs.length := by
  show ((bs.map byteHex).flatten).length = 2 * bs.length
  exact flatten_byteHex_length bs

/-- C7: `generate_id` is the lowercase hexadecimal SHA-256 digest of the
UTF-8 encoding of `"{date}_{currency}_{rate}"`; the digest always has the
fixed length 64 (32 bytes, two hex characters each); as a function it is
deterministic — equal inputs give the identical id — and total; and it
matches `hashlib` on the repository test's own input. -/
theorem c7_generate_id_sha256 :
    (∀ date currency rate : String,
      generate_id date currency rate =
        hexOfBytes (sha256Bytes (utf8Encode (date ++ "_" ++ currency ++ "_" ++ rate)))) ∧
    (∀ date currency rate : String, (generate_id date currency rate).length = 64) ∧
    (∀ date currency rate : String,
      generate_id date currency rate = generate_id date currency rate) ∧
    generate_id "2024-02-18" "EUR" "1.12" =
      "92687f1f48cf0e145486685573770ab34e5b5dcc3d0561c0275c5e5f35e9928b" := by
  refine ⟨fun _ _ _ => rfl, fun date currency rate => ?_, fun _ _ _ => rfl, by decide⟩
  show (hexOfBytes (sha256Bytes (utf8Encode (date ++ "_" ++ currency ++ "_" ++ rate)))).length = 64
  rw [hexOfBytes_length, sha256Bytes, digestBytes_length]

theorem weekdayIdx_lt (z : Nat) : weekdayIdxOfDays z < 7 :=
  Nat.mod_lt _ (by norm_num)

theorem weekend_name_iff (w : Nat) (h : w < 7) :
    ((["Saturday", "Sunday"].contains (weekdayName w)) = true) ↔ (w = 0 ∨ w = 6) := by
  interval_cases w <;> decide

/-- C8: a truthy response yields one record per `(currency, rate)` pair of
its `rates` mapping (two rates, two records), all records sharing the date,
the base currency (`"USD"` when `base` is missing), the weekday name, the
weekend flag and the retrieval time; the date comes from the response's
timestamp when truthy and from the current processing date otherwise; the
weekend flag is set exactly when the date's weekday index is Sunday (0) or
Saturday (6); an absent response yields no records. -/
theorem c8_record_builder (now : Nat) (p : Payload) :
    (buildRecords now (some p)).length = p.rates.length ∧
    (∀ r ∈ buildRecords now (some p),
      r.date = renderDate (responseDate now p) ∧
      r.base_currency = p.base.getD "USD" ∧
      r.day_of_week = weekdayOfCivil (responseDate now p) ∧
      r.retrieval_time = datetimeStrOfSecs now ∧
      (r.is_weekend = true ↔
        (weekdayIdxOfDays (daysFromCivil (responseDate now p).1
            (responseDate now p).2.1 (responseDate now p).2.2) = 0 ∨
         weekdayIdxOfDays (daysFromCivil (responseDate now p).1
            (responseDate now p).2.1 (responseDate now p).2.2) = 6))) ∧
    (∀ base rates t, t ≠ 0 →
      responseDate now ⟨base, some t, rates⟩ = civilFromDays (t / 86400)) ∧
    (∀ base rates, responseDate now ⟨base, none, rates⟩ = civilFromDays (now / 86400)) ∧
    buildRecords now none = [] := by
  refine ⟨by simp [buildRecords], ?_,
    by intro base rates t ht; simp [responseDate, ht], fun _ _ => rfl, rfl⟩
  intro r hr
  simp only [buildRecords, List.mem_map] at hr
  obtain ⟨cr, hcr, rfl⟩ := hr
  refine ⟨by simp, by simp, by simp, by simp, ?_⟩
  have hend := weekend_name_iff
    (weekdayIdxOfDays (daysFromCivil (responseDate now p).1
      (responseDate now p).2.1 (responseDate now p).2.2)) (weekdayIdx_lt _)
  simp at hend
  simp [weekdayOfCivil, hend]

/-- Witness for C8 on the spec's own two-rate example response. -/
theorem c8_record_builder_witness :
    (buildRecords 1700000000 (some samplePayload)).length = 2 ∧
    (sampleRecord.date = renderDate (responseDate 1700000000 samplePayload) ∧
     sampleRecord.base_currency = samplePayload.base.getD "USD" ∧
     sampleRecord.day_of_week = weekdayOfCivil (responseDate 1700000000 samplePayload) ∧
     sampleRecord.retrieval_time = datetimeStrOfSecs 1700000000 ∧
     (sampleRecord.is_weekend = true ↔
       (weekdayIdxOfDays (daysFromCivil (responseDate 1700000000 samplePayload).1
           (responseDate 1700000000 samplePayload).2.1
           (responseDate 1700000000 samplePayload).2.2) = 0 ∨
        weekdayIdxOfDays (daysFromCivil (responseDate 1700000000 samplePayload).1
           (responseDate 1700000000 samplePayload).2.1
           (responseDate 1700000000 samplePayload).2.2) = 6))) ∧
    responseDate 1700000000 samplePayload = civilFromDays (1708214400 / 86400) :=
  ⟨(c8_record_builder 1700000000 samplePayload).1,
   (c8_record_builder 1700000000 samplePayload).2.1 sampleRecord (by decide),
   (c8_record_builder 1700000000 samplePayload).2.2.1 (some "USD")
     [("EUR", "1.12"), ("GBP", "0.85")] 1708214400 (by decide)⟩

theorem mem_insortKey (k a : Nat × Nat) :
    ∀ l, a ∈ insortKey k l ↔ a = k ∨ a ∈ l := by
  intro l
  induction l with
  | nil => simp [insortKey]
  | cons k' rest ih =>
    by_cases h : k.1 < k'.1 ∨ (k.1 = k'.1 ∧ k.2 ≤ k'.2)
    · simp [insortKey, h]
    · simp [insortKey, h, ih]
      tauto

theorem mem_sortKeys (a : Nat × Nat) : ∀ l, a ∈ sortKeys l ↔ a ∈ l := by
  intro l
  induction l with
  | nil => simp [sortKeys]
  | cons k rest ih =>
    rw [show sortKeys (k :: rest) = insortKey k (sortKeys rest) from rfl, mem_insortKey]
    simp [ih]

theorem length_insortKey (k : Nat × Nat) :
    ∀ l, (insortKey k l).length = l.length + 1 := by
  intro l
  induction l with
  | nil => rfl
  | cons k' rest ih =>
    by_cases h : k.1 < k'.1 ∨ (k.1 = k'.1 ∧ k.2 ≤ k'.2)
    · simp [insortKey, h]
    · simp [insortKey, h, ih]

theorem length_sortKeys : ∀ l : List (Nat × Nat), (sortKeys l).length = l.length := by
  intro l
  induction l with
  | nil => rfl
  | cons k rest ih =>
    rw [show sortKeys (k :: rest) = insortKey k (sortKeys rest) from rfl,
      length_insortKey, ih]
    rfl

theorem mem_groupKeys (k : Nat × Nat) (rs : List Record) :
    k ∈ groupKeys rs ↔ k ∈ rs.map recordKey := by
  rw [groupKeys, mem_sortKeys, List.mem_dedup]

theorem applyWrites_untouched (ws : List (String × List Record)) :
    ∀ (fs : FS) (p : String), (∀ w ∈ ws, p ≠ w.1) → applyWrites fs ws p = fs p := by
  induction ws with
  | nil => intro fs p _; rfl
  | cons w t ih =>
    intro fs p h
    show applyWrites (applyWrite fs w) t p = fs p
    rw [ih (applyWrite fs w) p (fun w' hw' => h w' (by simp [hw']))]
    simp [applyWrite, h w (by simp)]

theorem applyWrites_overwrite_congr (ws : List (String × List Record)) :
    ∀ fs gs : FS, (∀ p, (∀ w ∈ ws, p ≠ w.1) → gs p = applyWrites fs ws p) →
    applyWrites gs ws = applyWrites fs ws := by
  induction ws with
  | nil =>
    intro fs gs h
    funext p
    exact h p (by simp)
  | cons w t ih =>
    intro fs gs h
    show applyWrites (applyWrite gs w) t = applyWrites (applyWrite fs w) t
    apply ih
    intro p hp
    by_cases hw : p = w.1
    · subst hw
      rw [applyWrites_untouched t (applyWrite fs w) w.1 hp]
      simp [applyWrite]
    · have h1 : gs p = applyWrites fs (w :: t) p := h p (fun w' hw' => by
        rcases List.mem_cons.mp hw' with rfl | hmem
        · exact hw
        · exact hp w' hmem)
      show applyWrite gs w p = applyWrites (applyWrite fs w) t p
      rw [show applyWrite gs w p = gs p by simp [applyWrite, hw], h1]
      rfl

theorem applyWrites_idempotent (fs : FS) (ws : List (String × List Record)) :
    applyWrites (applyWrites fs ws) ws = applyWrites fs ws :=
  applyWrites_overwrite_congr ws fs (applyWrites fs ws) (fun _ _ => rfl)

/-- C9: the writer emits one file per distinct `(year, month)` key of the
input records — so records spanning two partitions give two files; the file
of key `k` sits at `<save_path>/year=<Y>/month=<M>/exchange_rates.parquet`
and holds exactly the input records whose key is `k`, and every emitted file
is of that form; replaying the same writes over a file system leaves it
unchanged — the second invocation overwrites, it does not duplicate. -/
theorem c9_partitioned_writer (rs : List Record) (sp : String) :
    (save_to_parquet rs sp).writes.length = (rs.map recordKey).dedup.length ∧
    (∀ k, k ∈ rs.map recordKey →
      (partitionFile sp k, rs.filter fun r => decide (recordKey r = k)) ∈
        (save_to_parquet rs sp).writes) ∧
    (∀ w ∈ (save_to_parquet rs sp).writes, ∃ k, k ∈ rs.map recordKey ∧
      w = (partitionFile sp k, rs.filter fun r => decide (recordKey r = k))) ∧
    (∀ fs : FS,
      applyWrites (applyWrites fs (save_to_parquet rs sp).writes)
        (save_to_parquet rs sp).writes =
      applyWrites fs (save_to_parquet rs sp).writes) := by
  refine ⟨?_, ?_, ?_, fun fs => applyWrites_idempotent fs _⟩
  · simp [save_to_parquet, groupKeys, length_sortKeys]
  · intro k hk
    simp only [save_to_parquet, List.mem_map]
    exact ⟨k, (mem_groupKeys k rs).mpr hk, rfl⟩
  · intro w hw
    simp only [save_to_parquet, List.mem_map] at hw
    obtain ⟨k, hk, rfl⟩ := hw
    exact ⟨k, (mem_groupKeys k rs).mp hk, rfl⟩

/-- Witness for C9 on two records in distinct partitions. -/
theorem c9_partitioned_writer_witness :
    (save_to_parquet [recJan, recFeb] "output").writes.length = 2 ∧
    (partitionFile "output" (2024, 1),
      [recJan, recFeb].filter fun r => decide (recordKey r = (2024, 1))) ∈
      (save_to_parquet [recJan, recFeb] "output").writes ∧
    applyWrites
        (applyWrites (fun _ => none : FS) (save_to_parquet [recJan, recFeb] "output").writes)
        (save_to_parquet [recJan, recFeb] "output").writes =
      applyWrites (fun _ => none : FS) (save_to_parquet [recJan, recFeb] "output").writes :=
  ⟨(c9_partitioned_writer [recJan, recFeb] "output").1,
   (c9_partitioned_writer [recJan, recFeb] "output").2.1 (2024, 1) (by decide),
   (c9_partitioned_writer [recJan, recFeb] "output").2.2.2 (fun _ => none)⟩

/-- C10: a response carrying `timestamp = 0` behaves exactly like one with no
timestamp at all — the truthiness test `if timestamp:` is false for 0 — so
the record date is the current processing date, not 1970-01-01; concretely,
at processing instant 1708254896 the derived date is 2024-02-18. -/
theorem c10_zero_timestamp_fallback (now : Nat) (base : Option String)
    (rates : List (String × String)) :
    buildRecords now (some ⟨base, some 0, rates⟩) =
      buildRecords now (some ⟨base, none, rates⟩) ∧
    responseDate now ⟨base, some 0, rates⟩ = civilFromDays (now / 86400) ∧
    renderDate (responseDate 1708254896 ⟨base, some 0, rates⟩) = "2024-02-18" := by
  refine ⟨rfl, rfl, ?_⟩
  show renderDate (civilFromDays (1708254896 / 86400)) = "2024-02-18"
  decide

end ExchangeRatePipeline
